import Mathlib

/-!
Shallow embedding of the mail-list subsystem of the repository
(`apps/mail/components/mail/mail-list.tsx`): the multi-mode selection
state machine, range selection over the loaded thread sequence, the
hover-prefetch controller, scroll-triggered pagination, and the bulk
mark-read/unread hotkey handlers.

JavaScript semantics that matter here are modelled explicitly:
`===` on nullable strings (where `null === undefined` is `false`),
`Array.prototype.indexOf` returning `-1` on a miss, and
`Array.prototype.slice` over non-negative bounds.
-/

/-- One row of the mailbox view (the `InitialThread` type consumed by
`mail-list.tsx`; the `@/types` module itself is outside `src/`, so the shape
is taken from its uses there and the spec's `ThreadSummary`). `threadId` is
optional, as witnessed by `message.threadId ?? message.id` in the source.
Display-only fields (sender, title, tags, totalReplies, receivedOn) play no
role in the selection / prefetch logic and are omitted. -/
structure InitialThread where
  id : String
  threadId : Option String
  unread : Bool
deriving Repr, DecidableEq

/-- Selection state held by the `useMail` hook as used in `mail-list.tsx`:
`selected` is a single id or `null`, `bulkSelected` an array of ids in user
selection order. -/
structure MailState where
  selected : Option String
  bulkSelected : List String
deriving Repr, DecidableEq

/-- The `MailSelectMode` union type of `mail-list.tsx`. -/
inductive MailSelectMode
  | mass
  | range
  | single
  | selectAllBelow
deriving Repr, DecidableEq

/-- JavaScript `===` on nullable/optional strings: `null === undefined` and
any comparison with exactly one absent side is `false`; two present strings
compare by value. -/
def jsStrictEq : Option String → Option String → Bool
  | some a, some b => a == b
  | _, _ => false

/-- JavaScript `Array.prototype.indexOf`: index of the first occurrence, or
`-1` when the element is absent. -/
def jsIndexOf (l : List String) (x : String) : Int :=
  match l with
  | [] => -1
  | a :: rest =>
    if a == x then 0
    else
      let r := jsIndexOf rest x
      if r == -1 then -1 else r + 1

/-- JavaScript `Array.prototype.slice(a, b)` for the non-negative bounds this
code passes (every call site guards with `indexOf ≠ -1`, so `0 ≤ a ≤ b`):
the elements at indices `a .. b-1`, clamped to the array length. -/
def jsSlice (l : List String) (a b : Int) : List String :=
  (l.drop a.toNat).take (b.toNat - a.toNat)

/-- JavaScript one-argument `Array.prototype.slice(a)` for non-negative `a`:
everything from index `a` to the end. -/
def jsSliceFrom (l : List String) (a : Int) : List String :=
  l.drop a.toNat

/-- The `handleMailClick` callback of `MailList` (mail-list.tsx lines
465-518), acting on the selection state. `items` is the currently loaded
thread sequence from the thread cache. -/
def handleMailClick (selectMode : MailSelectMode) (items : List InitialThread)
    (mail : MailState) (message : InitialThread) : MailState :=
  if selectMode = .mass then
    let updatedBulkSelected :=
      if mail.bulkSelected.contains message.id then
        mail.bulkSelected.filter (fun id => id ≠ message.id)
      else
        mail.bulkSelected ++ [message.id]
    { mail with bulkSelected := updatedBulkSelected }
  else if selectMode = .range then
    let lastSelectedItem :=
      (mail.bulkSelected.getLast?).getD (mail.selected.getD message.id)
    let mailsIndex := items.map (fun m => m.id)
    let startIdx := jsIndexOf mailsIndex lastSelectedItem
    let endIdx := jsIndexOf mailsIndex message.id
    if startIdx ≠ -1 ∧ endIdx ≠ -1 then
      let selectedRange := jsSlice mailsIndex (min startIdx endIdx) (max startIdx endIdx + 1)
      { mail with bulkSelected := selectedRange }
    else
      mail
  else if selectMode = .selectAllBelow then
    let mailsIndex := items.map (fun m => m.id)
    let startIdx := jsIndexOf mailsIndex message.id
    if startIdx ≠ -1 then
      { mail with bulkSelected := jsSliceFrom mailsIndex startIdx }
    else
      mail
  else
    if jsStrictEq mail.selected message.threadId || jsStrictEq mail.selected (some message.id) then
      { selected := none, bulkSelected := [] }
    else
      { mail with selected := some (message.threadId.getD message.id), bulkSelected := [] }

/-- A user-facing toast notice (the `sonner` calls in mail-list.tsx). -/
inductive Notice
  | success (msg : String)
  | error (msg : String)
  | info (msg : String)
deriving Repr, DecidableEq

/-- The `selectAll` callback of `MailList` (mail-list.tsx lines 288-308):
toggles between deselecting everything and selecting every loaded row,
reporting a notice. -/
def selectAll (items : List InitialThread) (mail : MailState) : MailState × Notice :=
  if mail.bulkSelected.length > 0 then
    ({ mail with bulkSelected := [] }, .success "Deselected all emails")
  else if items.length > 0 then
    let allIds := items.map (fun item => item.id)
    ({ mail with bulkSelected := allIds },
      .success ("Selected " ++ toString allIds.length ++ " emails"))
  else
    (mail, .info "No emails to select")

/-- Target state of a read-state mutation request. -/
inductive ReadTarget
  | read
  | unread
deriving Repr, DecidableEq

/-- Observable side effects of the mail-list handlers: a mutation request to
the remote service, a thread-cache revalidation (`mutate()`), a toast, or a
`console.error` log. -/
inductive Effect
  | request (target : ReadTarget) (ids : List String)
  | revalidate
  | toast (n : Notice)
  | logError
deriving Repr, DecidableEq

/-- The `Meta+Shift+i` / `Control+Shift+i` bulk mark-as-read hotkey handler
(mail-list.tsx lines 360-382): issues `markAsRead` over the current
`bulkSelected`; on success toasts success and clears `bulkSelected`, on
failure toasts an error and leaves the state alone. `success` stands for the
remote mutation's reported outcome. -/
def bulkMarkReadHandler (success : Bool) (mail : MailState) : MailState × List Effect :=
  if success then
    ({ mail with bulkSelected := [] },
      [.request .read mail.bulkSelected, .toast (.success "Marked as read")])
  else
    (mail, [.request .read mail.bulkSelected, .toast (.error "Failed to mark as read")])

/-- The `Meta+Shift+u` / `Control+Shift+u` bulk mark-as-unread hotkey handler
(mail-list.tsx lines 336-358), symmetric to `bulkMarkReadHandler`. -/
def bulkMarkUnreadHandler (success : Bool) (mail : MailState) : MailState × List Effect :=
  if success then
    ({ mail with bulkSelected := [] },
      [.request .unread mail.bulkSelected, .toast (.success "Marked as unread")])
  else
    (mail, [.request .unread mail.bulkSelected, .toast (.error "Failed to mark as unread")])

/-- Effects of the `Thread` component's `handleMailClick` (mail-list.tsx
lines 71-80): after `onSelect`, when the mode is `single`, the row is not
`isMailSelected` (`message.id === mail.selected`) and the row is unread, a
`markAsRead` request for that row goes out; its success continuation calls
`mutate()` (revalidation) and its failure is `console.error`-logged. -/
def threadClickEffects (selectMode : MailSelectMode) (mail : MailState)
    (message : InitialThread) (success : Bool) : List Effect :=
  if selectMode = .single ∧ jsStrictEq (some message.id) mail.selected = false ∧ message.unread = true then
    .request .read [message.id] :: (if success then [.revalidate] else [.logError])
  else
    []

/-- The `Thread` component's `handleMailClick` as a whole: `onSelect`
(the list-level `handleMailClick`) always runs, and the auto mark-as-read
side effects happen alongside. -/
def threadHandleMailClick (selectMode : MailSelectMode) (items : List InitialThread)
    (mail : MailState) (message : InitialThread) (success : Bool) :
    MailState × List Effect :=
  (handleMailClick selectMode items mail message,
    threadClickEffects selectMode mail message success)

/-- The `handleScroll` callback (mail-list.tsx lines 268-282): returns
whether `loadMore()` is invoked for the given fetch-status flags and scroll
geometry. -/
def handleScroll (isLoading isValidating : Bool)
    (scrollTop scrollHeight clientHeight itemHeight : Int) : Bool :=
  if isLoading || isValidating then
    false
  else
    decide (scrollHeight - (scrollTop + clientHeight) < itemHeight * 2)

/-- The three selection-mode booleans of `MailList`. -/
structure ModeFlags where
  massSelectMode : Bool
  rangeSelectMode : Bool
  selectAllBelowMode : Bool
deriving Repr, DecidableEq

/-- `resetSelectMode` (mail-list.tsx lines 310-314). -/
def resetSelectMode (_ : ModeFlags) : ModeFlags :=
  ⟨false, false, false⟩

/-- The `Control` / `Meta` hotkey: reset, then enter mass mode. -/
def hotKeyMass (f : ModeFlags) : ModeFlags :=
  { resetSelectMode f with massSelectMode := true }

/-- The `Shift` hotkey: reset, then enter range mode. -/
def hotKeyShift (f : ModeFlags) : ModeFlags :=
  { resetSelectMode f with rangeSelectMode := true }

/-- The `Alt+Shift` hotkey: reset, then enter select-all-below mode. -/
def hotKeyAltShift (f : ModeFlags) : ModeFlags :=
  { resetSelectMode f with selectAllBelowMode := true }

/-- Modifier keys observed by the window-level `keyup` listener. -/
inductive Key
  | control
  | meta
  | shift
  | alt
  | other
deriving Repr, DecidableEq

/-- The window `keyup` handler (mail-list.tsx lines 427-437): each key
clears the flag it governs. -/
def handleKeyUp (f : ModeFlags) (k : Key) : ModeFlags :=
  let f1 := if k = .control ∨ k = .meta then { f with massSelectMode := false } else f
  let f2 := if k = .shift then { f1 with rangeSelectMode := false } else f1
  if k = .alt then { f2 with selectAllBelowMode := false } else f2

/-- The window `blur` handler (mail-list.tsx lines 439-443): clears every
mode flag. -/
def handleBlur (_ : ModeFlags) : ModeFlags :=
  ⟨false, false, false⟩

/-- Derivation of the active mode from the flags (mail-list.tsx lines
457-463). -/
def selectModeOf (f : ModeFlags) : MailSelectMode :=
  if f.massSelectMode then .mass
  else if f.rangeSelectMode then .range
  else if f.selectAllBelowMode then .selectAllBelow
  else .single

/-- Mode-flag states reachable from the initial all-false state through the
operations the component installs: the mode hotkeys, the `keyup` handler and
the `blur` handler. -/
inductive ReachableFlags : ModeFlags → Prop
  | init : ReachableFlags ⟨false, false, false⟩
  | mass : ReachableFlags f → ReachableFlags (hotKeyMass f)
  | shift : ReachableFlags f → ReachableFlags (hotKeyShift f)
  | altShift : ReachableFlags f → ReachableFlags (hotKeyAltShift f)
  | keyup : ReachableFlags f → ReachableFlags (handleKeyUp f k)
  | blur : ReachableFlags f → ReachableFlags (handleBlur f)

/-- Per-row state of the hover-prefetch controller in `Thread`
(mail-list.tsx lines 62-124): the `isHovering` and `hasPrefetched` refs, the
pending `setTimeout` handle, and the accumulated `preloadThread` calls
(each recorded by its key, `threadId ?? id`). -/
structure PrefetchState where
  isHovering : Bool
  hasPrefetched : Bool
  timerPending : Bool
  prefetches : List String
deriving Repr, DecidableEq

/-- Fresh per-row prefetch state: not hovering, nothing prefetched, no timer. -/
def freshPrefetchState : PrefetchState :=
  ⟨false, false, false, []⟩

/-- Delay in milliseconds before a sustained hover prefetches
(`HOVER_DELAY` in mail-list.tsx). -/
def HOVER_DELAY : Nat := 1000

/-- Events a `Thread` row observes: pointer enter (with the current select
mode and whether a session user id is available), pointer leave, the hover
timer expiring `HOVER_DELAY` ms after being set, and the row's `message.id`
changing (the `useEffect` that resets `hasPrefetched`). -/
inductive PEvent
  | mouseEnter (selectMode : MailSelectMode) (hasSession : Bool)
  | mouseLeave
  | timerFire
  | idChange
deriving Repr, DecidableEq

/-- One step of the hover-prefetch controller for the row `message`:
`handleMouseEnter` arms the timer only in single mode with a session and no
prior prefetch; `handleMouseLeave` clears hovering and cancels the timer;
an expiring timer prefetches (key `threadId ?? id`) only if still hovering
and marks the row prefetched; an id change resets the prefetched flag. -/
def prefetchStep (message : InitialThread) (s : PrefetchState) : PEvent → PrefetchState
  | .mouseEnter mode hasSession =>
    let s1 := { s with isHovering := true }
    if mode = .single ∧ hasSession = true ∧ s1.hasPrefetched = false then
      { s1 with timerPending := true }
    else
      s1
  | .mouseLeave => { s with isHovering := false, timerPending := false }
  | .timerFire =>
    if s.timerPending then
      let s1 := { s with timerPending := false }
      if s1.isHovering then
        { s1 with
          prefetches := s1.prefetches ++ [message.threadId.getD message.id],
          hasPrefetched := true }
      else
        s1
    else
      s
  | .idChange => { s with hasPrefetched := false }

/-- Run the hover-prefetch controller over a sequence of events. -/
def prefetchRun (message : InitialThread) (s : PrefetchState) (evs : List PEvent) : PrefetchState :=
  evs.foldl (prefetchStep message) s

/-! ### Helper lemmas -/

/-- Sample rows used by concrete witnesses and counterexamples. -/
def sampleA : InitialThread := ⟨"a", none, false⟩

def sampleB : InitialThread := ⟨"b", none, false⟩

def sampleC : InitialThread := ⟨"c", none, false⟩

def sampleU : InitialThread := ⟨"u", none, true⟩

def sampleT : InitialThread := ⟨"t", some "T2", false⟩

def sampleTU : InitialThread := ⟨"t", some "T2", true⟩

lemma jsStrictEq_some_left (x : String) (o : Option String) :
    jsStrictEq (some x) o = false ↔ o ≠ some x := by
  cases o with
  | none => simp [jsStrictEq]
  | some y =>
    simp only [jsStrictEq, beq_eq_false_iff_ne, ne_eq, Option.some.injEq]
    exact ⟨fun h hc => h hc.symm, fun h hc => h hc.symm⟩

lemma jsIndexOf_of_not_mem (l : List String) (x : String) (h : x ∉ l) :
    jsIndexOf l x = -1 := by
  induction l with
  | nil => rfl
  | cons a rest ih =>
    have hax : (a == x) = false := by
      refine beq_eq_false_iff_ne.mpr ?_
      intro hc
      exact h (hc ▸ List.mem_cons_self a rest)
    have hrest : x ∉ rest := fun hm => h (List.mem_cons_of_mem _ hm)
    simp [jsIndexOf, hax, ih hrest]

lemma jsIndexOf_nonneg_of_mem (l : List String) (x : String) (h : x ∈ l) :
    0 ≤ jsIndexOf l x := by
  induction l with
  | nil => simp at h
  | cons a rest ih =>
    by_cases hax : (a == x) = true
    · simp [jsIndexOf, hax]
    · have hb : (a == x) = false := by simpa using hax
      have hx : x ∈ rest := by
        rcases List.mem_cons.mp h with h1 | h1
        · exact absurd (beq_iff_eq.mpr h1.symm) (by simp [hb])
        · exact h1
      have hr := ih hx
      simp only [jsIndexOf, hb, Bool.false_eq_true, if_false]
      split
      · rename_i hcond
        rw [beq_iff_eq] at hcond
        omega
      · omega

lemma jsIndexOf_eq_neg_one_iff (l : List String) (x : String) :
    jsIndexOf l x = -1 ↔ x ∉ l := by
  constructor
  · intro h hm
    have := jsIndexOf_nonneg_of_mem l x hm
    omega
  · exact jsIndexOf_of_not_mem l x

lemma jsIndexOf_get (l : List String) (i : Nat) (x : String)
    (hnd : l.Nodup) (h : l.get? i = some x) : jsIndexOf l x = (i : Int) := by
  induction l generalizing i with
  | nil => simp at h
  | cons a rest ih =>
    rcases List.nodup_cons.mp hnd with ⟨hna, hndr⟩
    cases i with
    | zero =>
      rw [List.get?_cons_zero] at h
      injection h with h
      subst h
      simp [jsIndexOf]
    | succ j =>
      rw [List.get?_cons_succ] at h
      have hmem : x ∈ rest := List.get?_mem h
      have hax : (a == x) = false := beq_eq_false_iff_ne.mpr (fun hc => hna (hc ▸ hmem))
      have hr := ih j hndr h
      have hge : 0 ≤ jsIndexOf rest x := jsIndexOf_nonneg_of_mem rest x hmem
      have hne : (jsIndexOf rest x == -1) = false := by
        rw [beq_eq_false_iff_ne]
        omega
      simp only [jsIndexOf, hax, Bool.false_eq_true, if_false, hne]
      rw [hr]
      push_cast
      ring

lemma handleMailClick_single (items : List InitialThread) (mail : MailState)
    (message : InitialThread) :
    handleMailClick .single items mail message =
      if jsStrictEq mail.selected message.threadId || jsStrictEq mail.selected (some message.id) then
        ⟨none, []⟩
      else
        ⟨some (message.threadId.getD message.id), []⟩ := rfl

lemma handleMailClick_mass (items : List InitialThread) (mail : MailState)
    (message : InitialThread) :
    handleMailClick .mass items mail message =
      { mail with
        bulkSelected :=
          if mail.bulkSelected.contains message.id then
            mail.bulkSelected.filter (fun id => id ≠ message.id)
          else
            mail.bulkSelected ++ [message.id] } := rfl

lemma handleMailClick_range (items : List InitialThread) (mail : MailState)
    (message : InitialThread) :
    handleMailClick .range items mail message =
      (if jsIndexOf (items.map (fun m => m.id))
            ((mail.bulkSelected.getLast?).getD (mail.selected.getD message.id)) ≠ -1 ∧
          jsIndexOf (items.map (fun m => m.id)) message.id ≠ -1 then
        { mail with
          bulkSelected :=
            jsSlice (items.map (fun m => m.id))
              (min (jsIndexOf (items.map (fun m => m.id))
                  ((mail.bulkSelected.getLast?).getD (mail.selected.getD message.id)))
                (jsIndexOf (items.map (fun m => m.id)) message.id))
              (max (jsIndexOf (items.map (fun m => m.id))
                  ((mail.bulkSelected.getLast?).getD (mail.selected.getD message.id)))
                (jsIndexOf (items.map (fun m => m.id)) message.id) + 1) }
      else
        mail) := rfl

lemma handleMailClick_selectAllBelow (items : List InitialThread) (mail : MailState)
    (message : InitialThread) :
    handleMailClick .selectAllBelow items mail message =
      (if jsIndexOf (items.map (fun m => m.id)) message.id ≠ -1 then
        { mail with
          bulkSelected :=
            jsSliceFrom (items.map (fun m => m.id))
              (jsIndexOf (items.map (fun m => m.id)) message.id) }
      else
        mail) := rfl

/-! ### Claim theorems -/

/-- C2 (counterexample): starting from the initial selection state, a
single-mode click on row `a` (selecting it) followed by a range-mode click on
row `b` reaches a state whose `bulkSelected` is non-empty while `selected` is
still set — the claimed invariant "bulkSelected non-empty implies selected
cleared" fails on a state reachable by the selection operations. -/
theorem bulk_nonempty_keeps_selected_cex :
    ((handleMailClick .range [sampleA, sampleB]
        (handleMailClick .single [sampleA, sampleB] ⟨none, []⟩ sampleA) sampleB).bulkSelected ≠ []) ∧
    ((handleMailClick .range [sampleA, sampleB]
        (handleMailClick .single [sampleA, sampleB] ⟨none, []⟩ sampleA) sampleB).selected ≠ none) := by
  decide

/-- C2 (amended): single-mode clicks always clear `bulkSelected`, and every
bulk operation (mass toggle, range select, select-all-below, select-all)
leaves `selected` unchanged rather than clearing it — so a set `selected` and
a non-empty `bulkSelected` can coexist after a bulk operation. -/
theorem single_clears_bulk_and_bulk_ops_keep_selected
    (items : List InitialThread) (mail : MailState) (message : InitialThread) :
    (handleMailClick .single items mail message).bulkSelected = [] ∧
    (handleMailClick .mass items mail message).selected = mail.selected ∧
    (handleMailClick .range items mail message).selected = mail.selected ∧
    (handleMailClick .selectAllBelow items mail message).selected = mail.selected ∧
    (selectAll items mail).1.selected = mail.selected := by
  refine ⟨?_, ?_, ?_, ?_, ?_⟩
  · rw [handleMailClick_single]
    split <;> rfl
  · rw [handleMailClick_mass]
  · rw [handleMailClick_range]
    split <;> rfl
  · rw [handleMailClick_selectAllBelow]
    split <;> rfl
  · simp only [selectAll]
    split
    · rfl
    · split <;> rfl

/-- C4 (counterexample): for the row `sampleT` with `id = "t"` and
`threadId = "T2"`, and current `selected = "t"`, the row's selection key
(`threadId`, i.e. `"T2"`) differs from `selected`, so the claim says clicking
it selects it (sets `selected` to `"T2"`); the code instead deselects,
because the deselect branch also matches on the row's plain `id`. -/
theorem single_click_other_row_cex :
    sampleT.threadId.getD sampleT.id ≠ "t" ∧
    (handleMailClick .single [] ⟨some "t", []⟩ sampleT).selected = none := by
  decide

/-- C4 (amended): in single mode, clicking a row where `selected` equals the
row's `threadId` (when present) or equals the row's `id` clears `selected`
and `bulkSelected`; clicking a row where `selected` matches neither sets
`selected` to the row's `threadId` if present, else its `id`, and clears
`bulkSelected`. -/
theorem single_click_spec (items : List InitialThread) (mail : MailState)
    (message : InitialThread) :
    ((jsStrictEq mail.selected message.threadId || jsStrictEq mail.selected (some message.id)) = true →
      handleMailClick .single items mail message = ⟨none, []⟩) ∧
    ((jsStrictEq mail.selected message.threadId || jsStrictEq mail.selected (some message.id)) = false →
      handleMailClick .single items mail message =
        ⟨some (message.threadId.getD message.id), []⟩) := by
  constructor <;> intro h <;> rw [handleMailClick_single] <;> simp [h]

/-- C4 (witness): with `selected = "t1"` and a click on the row with id
`"t1"`, the state becomes fully deselected; with `selected` absent, clicking
that row selects it. -/
theorem single_click_spec_witness :
    handleMailClick .single [] ⟨some "t1", []⟩ ⟨"t1", none, false⟩ = ⟨none, []⟩ ∧
    handleMailClick .single [] ⟨none, []⟩ ⟨"t1", none, false⟩ = ⟨some "t1", []⟩ := by
  constructor
  · exact (single_click_spec [] ⟨some "t1", []⟩ ⟨"t1", none, false⟩).1 (by decide)
  · exact (single_click_spec [] ⟨none, []⟩ ⟨"t1", none, false⟩).2 (by decide)

/-- C5: the bulk mark-as-read / mark-as-unread hotkey handlers issue the
mutation over the current `bulkSelected`; on success they clear
`bulkSelected` and emit a success notice, on failure they leave the state
unchanged and emit a failure notice. -/
theorem bulk_mark_read_unread_spec (mail : MailState) :
    ((bulkMarkReadHandler true mail).1.bulkSelected = [] ∧
      (bulkMarkReadHandler true mail).2 =
        [.request .read mail.bulkSelected, .toast (.success "Marked as read")]) ∧
    ((bulkMarkReadHandler false mail).1 = mail ∧
      (bulkMarkReadHandler false mail).2 =
        [.request .read mail.bulkSelected, .toast (.error "Failed to mark as read")]) ∧
    ((bulkMarkUnreadHandler true mail).1.bulkSelected = [] ∧
      (bulkMarkUnreadHandler true mail).2 =
        [.request .unread mail.bulkSelected, .toast (.success "Marked as unread")]) ∧
    ((bulkMarkUnreadHandler false mail).1 = mail ∧
      (bulkMarkUnreadHandler false mail).2 =
        [.request .unread mail.bulkSelected, .toast (.error "Failed to mark as unread")]) :=
  ⟨⟨rfl, rfl⟩, ⟨rfl, rfl⟩, ⟨rfl, rfl⟩, ⟨rfl, rfl⟩⟩

/-- C6 (counterexample): a successful bulk mark-as-read over the selection
`["x"]` produces no thread-cache revalidation effect — the claim that every
successful markRead/markUnread mutation triggers revalidation fails on the
bulk hotkey path. -/
theorem bulk_success_no_revalidate_cex :
    Effect.revalidate ∉ (bulkMarkReadHandler true ⟨none, ["x"]⟩).2 := by
  decide

/-- C6 (amended): only the single-thread auto mark-as-read path triggers a
thread-cache revalidation on success (whenever its request goes out at all);
the bulk hotkey mark-as-read/unread paths never revalidate on success. -/
theorem revalidate_only_on_single_path (mode : MailSelectMode) (mail : MailState)
    (message : InitialThread)
    (h : Effect.request .read [message.id] ∈ threadClickEffects mode mail message true) :
    Effect.revalidate ∈ threadClickEffects mode mail message true ∧
    (∀ m2 : MailState, Effect.revalidate ∉ (bulkMarkReadHandler true m2).2 ∧
      Effect.revalidate ∉ (bulkMarkUnreadHandler true m2).2) := by
  constructor
  · by_cases hc : mode = .single ∧ jsStrictEq (some message.id) mail.selected = false ∧
        message.unread = true
    · simp [threadClickEffects, hc]
    · simp [threadClickEffects, hc] at h
  · intro m2
    constructor <;> simp [bulkMarkReadHandler, bulkMarkUnreadHandler]

/-- C6 (witness): clicking the unread row `sampleU` while nothing is selected
issues the request, and the success path then revalidates; the bulk path on a
concrete state does not. -/
theorem revalidate_only_on_single_path_witness :
    Effect.revalidate ∈ threadClickEffects .single ⟨none, []⟩ sampleU true ∧
    Effect.revalidate ∉ (bulkMarkReadHandler true ⟨none, ["a", "b"]⟩).2 := by
  have h := revalidate_only_on_single_path .single ⟨none, []⟩ sampleU (by decide)
  exact ⟨h.1, (h.2 ⟨none, ["a", "b"]⟩).1⟩

lemma reachable_flags_cases (f : ModeFlags) (h : ReachableFlags f) :
    f = ⟨false, false, false⟩ ∨ f = ⟨true, false, false⟩ ∨
    f = ⟨false, true, false⟩ ∨ f = ⟨false, false, true⟩ := by
  induction h with
  | init => exact Or.inl rfl
  | mass h ih => exact Or.inr (Or.inl rfl)
  | shift h ih => exact Or.inr (Or.inr (Or.inl rfl))
  | altShift h ih => exact Or.inr (Or.inr (Or.inr rfl))
  | @keyup g k h ih =>
    rcases ih with rfl | rfl | rfl | rfl <;> cases k <;> decide
  | blur h ih => exact Or.inl rfl

/-- C3: from any reachable mode-flag state, releasing the modifier that
activated the current mode (either platform key for `mass`, Shift for
`range`, Alt for `selectAllBelow`) resets the derived mode to `single`, and a
window blur event resets the mode to `single` from any flag state
whatsoever. -/
theorem mode_reset_to_single (f : ModeFlags) (h : ReachableFlags f) :
    (selectModeOf f = .mass →
      selectModeOf (handleKeyUp f .control) = .single ∧
      selectModeOf (handleKeyUp f .meta) = .single) ∧
    (selectModeOf f = .range → selectModeOf (handleKeyUp f .shift) = .single) ∧
    (selectModeOf f = .selectAllBelow → selectModeOf (handleKeyUp f .alt) = .single) ∧
    (∀ g : ModeFlags, selectModeOf (handleBlur g) = .single) := by
  have hblur : ∀ g : ModeFlags, selectModeOf (handleBlur g) = .single := fun g => rfl
  rcases reachable_flags_cases f h with rfl | rfl | rfl | rfl <;>
    exact ⟨by decide, by decide, by decide, hblur⟩

/-- C3 (witness): after pressing the mass-select hotkey, releasing Control
returns the mode to `single`; after the Alt+Shift hotkey, releasing Alt does
too, and a blur from that state resets as well. -/
theorem mode_reset_to_single_witness :
    selectModeOf (handleKeyUp ⟨true, false, false⟩ .control) = .single ∧
    selectModeOf (handleKeyUp ⟨false, false, true⟩ .alt) = .single ∧
    selectModeOf (handleBlur ⟨false, false, true⟩) = .single := by
  have h1 := mode_reset_to_single ⟨true, false, false⟩
    (ReachableFlags.mass ReachableFlags.init)
  have h2 := mode_reset_to_single ⟨false, false, true⟩
    (ReachableFlags.altShift ReachableFlags.init)
  exact ⟨(h1.1 rfl).1, h2.2.2.1 rfl, h2.2.2.2 ⟨false, false, true⟩⟩

/-- C7 (counterexample): for the unread row `sampleTU` with `id = "t"` and
`threadId = "T2"`, and `mail.selected = "T2"` (reachable: a prior single-mode
click on this row sets `selected` to its `threadId`), the row is already the
open selection — the single-mode click deselects it — yet a mark-as-read
request for it is still issued, because the request guard tests only
`message.id === mail.selected` while the deselect branch also matches
`threadId`. This falsifies the claimed "issued iff not already the open
selection and unread". -/
theorem markread_fires_on_open_selection_cex :
    handleMailClick .single [] ⟨some "T2", []⟩ sampleTU = ⟨none, []⟩ ∧
    sampleTU.unread = true ∧
    Effect.request .read [sampleTU.id] ∈ threadClickEffects .single ⟨some "T2", []⟩ sampleTU true := by
  decide

/-- C7 (amended): in the `Thread` click handler, a mark-as-read request for
the clicked row goes out exactly when the mode is `single`, the row's plain
`id` differs from `mail.selected` (the code's `isMailSelected` test — not the
selection key `threadId ?? id`, so a row open under its `threadId` still
triggers the request) and the row is unread; the resulting selection state
does not depend on whether that request succeeds, and on failure the only
extra effect is a `console.error` log. -/
theorem single_click_markread_iff (mode : MailSelectMode) (items : List InitialThread)
    (mail : MailState) (message : InitialThread) (success : Bool) :
    (Effect.request .read [message.id] ∈ threadClickEffects mode mail message success ↔
      (mode = .single ∧ mail.selected ≠ some message.id ∧ message.unread = true)) ∧
    (threadHandleMailClick mode items mail message false).1 =
      (threadHandleMailClick mode items mail message true).1 ∧
    (mode = .single → mail.selected ≠ some message.id → message.unread = true →
      threadClickEffects mode mail message false =
        [.request .read [message.id], .logError]) := by
  refine ⟨?_, rfl, ?_⟩
  · by_cases hc : mode = .single ∧ jsStrictEq (some message.id) mail.selected = false ∧
        message.unread = true
    · simp only [threadClickEffects]
      rw [if_pos hc]
      constructor
      · intro _
        exact ⟨hc.1, (jsStrictEq_some_left message.id mail.selected).mp hc.2.1, hc.2.2⟩
      · intro _
        exact List.mem_cons_self _ _
    · simp only [threadClickEffects]
      rw [if_neg hc]
      constructor
      · intro hm
        simp at hm
      · intro hr
        exact absurd ⟨hr.1, (jsStrictEq_some_left message.id mail.selected).mpr hr.2.1, hr.2.2⟩ hc
  · intro h1 h2 h3
    have hc : mode = .single ∧ jsStrictEq (some message.id) mail.selected = false ∧
        message.unread = true :=
      ⟨h1, (jsStrictEq_some_left message.id mail.selected).mpr h2, h3⟩
    simp only [threadClickEffects]
    rw [if_pos hc]
    rfl

/-- C7 (witness for the amended claim): clicking the unread row `sampleU` in
single mode with nothing selected issues the request; the selection outcome
is the same whether or not the request succeeds, and a failed request adds
only a log. -/
theorem single_click_markread_iff_witness :
    Effect.request .read [sampleU.id] ∈ threadClickEffects .single ⟨none, []⟩ sampleU true ∧
    threadClickEffects .single ⟨none, []⟩ sampleU false =
      [.request .read [sampleU.id], .logError] := by
  have h := single_click_markread_iff .single [] ⟨none, []⟩ sampleU true
  exact ⟨h.1.mpr ⟨rfl, by decide, by decide⟩, h.2.2 rfl (by decide) (by decide)⟩

/-- C9: `handleScroll` invokes `loadMore()` exactly when no fetch is in
flight (`isLoading` and `isValidating` both false) and the distance from the
bottom of the scrollable content to the viewport bottom is below two
estimated row heights; in particular no scroll event starts a fetch while
one is pending. -/
theorem scroll_triggers_loadMore_iff (isLoading isValidating : Bool)
    (scrollTop scrollHeight clientHeight itemHeight : Int) :
    (handleScroll isLoading isValidating scrollTop scrollHeight clientHeight itemHeight = true ↔
      (isLoading = false ∧ isValidating = false ∧
        scrollHeight - (scrollTop + clientHeight) < itemHeight * 2)) ∧
    (isLoading = true ∨ isValidating = true →
      handleScroll isLoading isValidating scrollTop scrollHeight clientHeight itemHeight = false) := by
  cases isLoading <;> cases isValidating <;> simp [handleScroll]

/-- C9 (witness): with no fetch in flight and the scroll position 100px from
the bottom of a viewport whose rows are 96px tall, `loadMore` fires; with a
validation fetch pending at the same geometry it does not. -/
theorem scroll_triggers_loadMore_iff_witness :
    handleScroll false false 800 1000 100 96 = true ∧
    handleScroll false true 800 1000 100 96 = false := by
  refine ⟨?_, ?_⟩
  · exact (scroll_triggers_loadMore_iff false false 800 1000 100 96).1.mpr
      ⟨rfl, rfl, by decide⟩
  · exact (scroll_triggers_loadMore_iff false true 800 1000 100 96).2 (Or.inr rfl)

/-- C10: a range-mode click whose anchor id or clicked id is not among the
loaded ids, and a select-all-below click whose clicked id is not among the
loaded ids, leave the whole selection state unchanged. -/
theorem missing_ids_leave_selection_unchanged (items : List InitialThread)
    (mail : MailState) (message : InitialThread) :
    (((mail.bulkSelected.getLast?).getD (mail.selected.getD message.id) ∉
          items.map (fun m => m.id) ∨
        message.id ∉ items.map (fun m => m.id)) →
      handleMailClick .range items mail message = mail) ∧
    (message.id ∉ items.map (fun m => m.id) →
      handleMailClick .selectAllBelow items mail message = mail) := by
  constructor
  · intro h
    rw [handleMailClick_range]
    rcases h with h | h
    · rw [if_neg]
      intro hc
      exact hc.1 ((jsIndexOf_eq_neg_one_iff _ _).mpr h)
    · rw [if_neg]
      intro hc
      exact hc.2 ((jsIndexOf_eq_neg_one_iff _ _).mpr h)
  · intro h
    rw [handleMailClick_selectAllBelow, if_neg]
    intro hc
    exact hc ((jsIndexOf_eq_neg_one_iff _ _).mpr h)

/-- C10 (witness): with loaded rows `a, b`, a range click on `a` anchored at
the unloaded id `"z"`, and a select-all-below click on the unloaded row `c`,
both leave the state untouched. -/
theorem missing_ids_leave_selection_unchanged_witness :
    handleMailClick .range [sampleA, sampleB] ⟨some "z", []⟩ sampleA = ⟨some "z", []⟩ ∧
    handleMailClick .selectAllBelow [sampleA, sampleB] ⟨none, []⟩ sampleC = ⟨none, []⟩ := by
  constructor
  · exact (missing_ids_leave_selection_unchanged [sampleA, sampleB] ⟨some "z", []⟩ sampleA).1
      (Or.inl (by decide))
  · exact (missing_ids_leave_selection_unchanged [sampleA, sampleB] ⟨none, []⟩ sampleC).2
      (by decide)

/-- C1: in range mode, with the anchor id (last of `bulkSelected`, else
`selected`, else the clicked row's id) loaded at index `a` and the clicked
row's id loaded at index `b` (ids unique within the loaded view, per the data
model), the click replaces `bulkSelected` with exactly the ids at indices
`min(a,b) .. max(a,b)` of the loaded sequence, inclusive and in sequence
order, whichever of `a`, `b` is larger. -/
theorem range_click_selects_inclusive_span (items : List InitialThread)
    (mail : MailState) (message : InitialThread) (a b : Nat)
    (hnd : (items.map (fun m => m.id)).Nodup)
    (ha : (items.map (fun m => m.id)).get? a =
      some ((mail.bulkSelected.getLast?).getD (mail.selected.getD message.id)))
    (hb : (items.map (fun m => m.id)).get? b = some message.id) :
    (handleMailClick .range items mail message).bulkSelected =
      ((items.map (fun m => m.id)).drop (min a b)).take (max a b + 1 - min a b) := by
  have hsa : jsIndexOf (items.map (fun m => m.id))
      ((mail.bulkSelected.getLast?).getD (mail.selected.getD message.id)) = (a : Int) :=
    jsIndexOf_get _ a _ hnd ha
  have hsb : jsIndexOf (items.map (fun m => m.id)) message.id = (b : Int) :=
    jsIndexOf_get _ b _ hnd hb
  have hcond : jsIndexOf (items.map (fun m => m.id))
      ((mail.bulkSelected.getLast?).getD (mail.selected.getD message.id)) ≠ -1 ∧
      jsIndexOf (items.map (fun m => m.id)) message.id ≠ -1 := by
    rw [hsa, hsb]
    constructor <;> omega
  rw [handleMailClick_range, if_pos hcond]
  show jsSlice (items.map (fun m => m.id)) _ _ = _
  rw [hsa, hsb]
  unfold jsSlice
  have h1 : (min (a : Int) (b : Int)).toNat = min a b := by omega
  have h2 : (max (a : Int) (b : Int) + 1).toNat - (min (a : Int) (b : Int)).toNat =
      max a b + 1 - min a b := by omega
  rw [h2, h1]

/-- C1 (witness): with loaded rows `a, b, c`, `selected = "c"` (so the anchor
is `"c"` at index 2) and a range click on row `a` at index 0 — the anchor
index exceeding the click index — `bulkSelected` becomes `["a", "b", "c"]`,
the full inclusive span. -/
theorem range_click_selects_inclusive_span_witness :
    (handleMailClick .range [sampleA, sampleB, sampleC] ⟨some "c", []⟩ sampleA).bulkSelected =
      ["a", "b", "c"] := by
  have h := range_click_selects_inclusive_span [sampleA, sampleB, sampleC]
    ⟨some "c", []⟩ sampleA 2 0 (by decide) (by decide) (by decide)
  rw [h]
  decide

lemma prefetch_stable (message : InitialThread) (evs : List PEvent)
    (hev : PEvent.idChange ∉ evs) :
    ∀ s : PrefetchState, s.hasPrefetched = true → s.timerPending = false →
      (prefetchRun message s evs).prefetches = s.prefetches ∧
      (prefetchRun message s evs).hasPrefetched = true ∧
      (prefetchRun message s evs).timerPending = false := by
  induction evs with
  | nil => exact fun s h1 h2 => ⟨rfl, h1, h2⟩
  | cons e rest ih =>
    intro s h1 h2
    have hne : e ≠ .idChange := fun hc => hev (hc ▸ List.mem_cons_self e rest)
    have hrest : PEvent.idChange ∉ rest := fun hm => hev (List.mem_cons_of_mem _ hm)
    have hstep : (prefetchStep message s e).prefetches = s.prefetches ∧
        (prefetchStep message s e).hasPrefetched = true ∧
        (prefetchStep message s e).timerPending = false := by
      cases e with
      | mouseEnter mode sess => simp [prefetchStep, h1, h2]
      | mouseLeave => simp [prefetchStep, h1]
      | timerFire => simp [prefetchStep, h1, h2]
      | idChange => exact absurd rfl hne
    have htail := ih hrest (prefetchStep message s e) hstep.2.1 hstep.2.2
    have hrun : prefetchRun message s (e :: rest) =
        prefetchRun message (prefetchStep message s e) rest := rfl
    rw [hrun]
    exact ⟨htail.1.trans hstep.1, htail.2.1, htail.2.2⟩

/-- C8: starting from a fresh row, a hover abandoned before the
`HOVER_DELAY` timer fires never prefetches (pointer-leave cancels the
timer, so even a stray later expiry is a no-op); a hover sustained to timer
expiry in single mode with a session issues exactly one prefetch, keyed by
the row's `threadId` if present else its `id`, and no subsequent
enter/leave/fire events add another prefetch as long as the row's id does not
change. -/
theorem hover_prefetch_once (mode : MailSelectMode) (sess : Bool)
    (message : InitialThread) (rest : List PEvent)
    (hrest : PEvent.idChange ∉ rest) :
    (prefetchRun message freshPrefetchState
        [.mouseEnter mode sess, .mouseLeave, .timerFire]).prefetches = [] ∧
    (prefetchRun message freshPrefetchState
        (.mouseEnter .single true :: .timerFire :: rest)).prefetches =
      [message.threadId.getD message.id] := by
  constructor
  · cases mode <;> cases sess <;> rfl
  · have h0 : prefetchRun message freshPrefetchState [.mouseEnter .single true, .timerFire] =
        ⟨true, true, false, [message.threadId.getD message.id]⟩ := rfl
    have hsplit : prefetchRun message freshPrefetchState
        (.mouseEnter .single true :: .timerFire :: rest) =
        prefetchRun message ⟨true, true, false, [message.threadId.getD message.id]⟩ rest := by
      rw [← h0]
      rfl
    rw [hsplit]
    exact (prefetch_stable message rest hrest
      ⟨true, true, false, [message.threadId.getD message.id]⟩ rfl rfl).1

/-- C8 (witness): for row `sampleA`, an enter/leave pair followed by a stray
timer expiry prefetches nothing, and a sustained hover through expiry
followed by another enter and expiry still prefetches exactly once. -/
theorem hover_prefetch_once_witness :
    (prefetchRun sampleA freshPrefetchState
        [.mouseEnter .single true, .mouseLeave, .timerFire]).prefetches = [] ∧
    (prefetchRun sampleA freshPrefetchState
        [.mouseEnter .single true, .timerFire, .mouseEnter .single true, .timerFire]).prefetches =
      ["a"] := by
  have h := hover_prefetch_once .single true sampleA
    [.mouseEnter .single true, .timerFire] (by decide)
  exact ⟨h.1, h.2⟩
